import Mathlib

/-!
Verification development for the SCM deformable-terrain core
(`src/SCMTerrainOld.cpp`, `include/chrono_gpu_scm/SCMTerrainOld.h`).

Shallow embedding conventions:
* C++ `double` is modelled by `ℚ` (exact field arithmetic).
* `std::pow(s, Bekker_n)` and `std::exp` are transcendental; they are carried
  as function parameters (`powN`, `expNeg`) inside `SoilParams`, so that every
  theorem quantifies over the behaviour of the real power/exponential, and
  concrete instantiations pick a legitimate exponent (e.g. `n = 1`).
* The `std::unordered_map` grid store is modelled as an association list with
  overwrite-on-insert semantics; the hit map of one step is a list of
  `HitInput` records (the map has unique keys, hence `Nodup` hypotheses where
  the counting claims need them).
* Per-hit soil parameters (global defaults, possibly shadowed by the
  location-dependent soil callback) are attached to each `HitInput`,
  mirroring how `ComputeInternalForces` resolves them before the trial.
-/

namespace SCM

/-- A 3-vector of rationals (models `ChVector3d`). -/
structure Vec3 where
  x : ℚ
  y : ℚ
  z : ℚ
  deriving DecidableEq

/-- Per-node state, one record per touched cell (models `SCMLoaderOld::NodeRecord`,
`SCMTerrainOld.h` lines 424-458). -/
structure NodeRecord where
  level_initial : ℚ
  level : ℚ
  hit_level : ℚ
  normal : Vec3
  sinkage : ℚ
  sinkage_plastic : ℚ
  sinkage_elastic : ℚ
  sigma : ℚ
  sigma_yield : ℚ
  kshear : ℚ
  tau : ℚ
  erosion : Bool
  massremainder : ℚ
  step_plastic_flow : ℚ
  deriving DecidableEq

/-- The `NodeRecord(init_level, level, n)` constructor: `hit_level` is the `1e9`
sentinel, `sinkage = init_level - level`, every other scalar starts at zero. -/
def NodeRecord.fresh (init_level level : ℚ) (n : Vec3) : NodeRecord where
  level_initial := init_level
  level := level
  hit_level := 10 ^ 9
  normal := n
  sinkage := init_level - level
  sinkage_plastic := 0
  sinkage_elastic := 0
  sigma := 0
  sigma_yield := 0
  kshear := 0
  tau := 0
  erosion := false
  massremainder := 0
  step_plastic_flow := 0

/-- Start-of-step reset applied to every node modified during the previous step
(`ComputeInternalForces`, lines 1081-1087): `sigma`, `sinkage_elastic` and
`step_plastic_flow` are zeroed, `erosion` cleared, `hit_level` reset to the
`1e9` sentinel.  `sinkage` and `sinkage_plastic` are NOT touched. -/
def resetNode (nr : NodeRecord) : NodeRecord :=
  { nr with
    sigma := 0
    sinkage_elastic := 0
    step_plastic_flow := 0
    erosion := false
    hit_level := 10 ^ 9 }

/-- Soil parameters as used by the constitutive update.  `powN s` models
`std::pow(s, Bekker_n)`; `expNeg x` models `std::exp(-x)`. -/
structure SoilParams where
  Bekker_Kphi : ℚ
  Bekker_Kc : ℚ
  Mohr_cohesion : ℚ
  Mohr_mu : ℚ
  Janosi_shear : ℚ
  elastic_K : ℚ
  damping_R : ℚ
  powN : ℚ → ℚ
  expNeg : ℚ → ℚ

/-- The elastic-trial pressure computed for a ray hit at height `hl` on record
`nr` (`ComputeInternalForces`, lines 1396-1400). -/
def elasticTrial (sp : SoilParams) (hl : ℚ) (nr : NodeRecord) : ℚ :=
  sp.elastic_K * (nr.normal.z * (nr.level_initial - hl) - nr.sinkage_plastic)

/-- The per-hit constitutive update (`ComputeInternalForces`, lines 1377-1524,
force accumulation elided).  Inputs: per-hit soil parameters `sp` (global or
callback-shadowed), the patch shape factor `oob`, the hit height `hl` in the
SCM frame, the normal speed `Vn`, the tangential speed `Vt = Vdot(speed, -T)`,
and the integrator step `dt`.  Returns the updated record and whether the node
was marked modified (`false` models the unilaterality `continue`, which also
skips force accumulation for this cell). -/
def updateHitNode (sp : SoilParams) (oob hl Vn Vt dt : ℚ) (nr0 : NodeRecord) :
    NodeRecord × Bool :=
  let ca := nr0.normal.z
  let nr1 := { nr0 with hit_level := hl }
  let p_hit_offset := ca * (nr1.level_initial - nr1.hit_level)
  let sigma_try := sp.elastic_K * (p_hit_offset - nr1.sinkage_plastic)
  if sigma_try < 0 then
    ({ nr1 with sigma := 0 }, false)
  else
    let nr2 := { nr1 with
      sigma := sigma_try
      sinkage := p_hit_offset
      level := nr1.hit_level
      kshear := nr1.kshear + Vt * dt }
    let nr3 :=
      if nr2.sigma_yield < nr2.sigma then
        let sigmaB := (oob * sp.Bekker_Kc + sp.Bekker_Kphi) * sp.powN nr2.sinkage
        let newPlastic := nr2.sinkage - sigmaB / sp.elastic_K
        { nr2 with
          sigma := sigmaB
          sigma_yield := sigmaB
          sinkage_plastic := newPlastic
          step_plastic_flow := (newPlastic - nr2.sinkage_plastic) / dt }
      else nr2
    let nr4 := { nr3 with sinkage_elastic := nr3.sinkage - nr3.sinkage_plastic }
    let nr5 := { nr4 with sigma := nr4.sigma + -Vn * sp.damping_R }
    let tau_max := sp.Mohr_cohesion + nr5.sigma * sp.Mohr_mu
    let nr6 := { nr5 with tau := tau_max * (1 - sp.expNeg (nr5.kshear / sp.Janosi_shear)) }
    let nr7 := { nr6 with level := nr6.level_initial - nr6.sinkage / ca }
    (nr7, true)

/-- Integer grid-cell index (models `ChVector2i`). -/
abbrev Cell := ℤ × ℤ

/-- The sparse grid store (models `m_grid_map`), as an association list. -/
abbrev Grid := List (Cell × NodeRecord)

/-- Lookup in the grid store (models `m_grid_map.find` / `.at`). -/
def gridLookup : Grid → Cell → Option NodeRecord
  | [], _ => none
  | e :: g, ij => if e.1 = ij then some e.2 else gridLookup g ij

/-- Insert-or-overwrite in the grid store (models `m_grid_map[ij] = nr` and
`insert` on a missing key). -/
def gridInsert : Grid → Cell → NodeRecord → Grid
  | [], ij, nr => [(ij, nr)]
  | e :: g, ij, nr => if e.1 = ij then (ij, nr) :: g else e :: gridInsert g ij nr

/-- One entry of the per-step hit map (models `HitRecord` plus the quantities
`ComputeInternalForces` derives per hit: hit height in the SCM frame, normal
and tangential speeds of the contactable, patch shape factor, resolved soil
parameters). -/
structure HitInput where
  cell : Cell
  hit_level : ℚ
  Vn : ℚ
  Vt : ℚ
  oob : ℚ
  sp : SoilParams

/-- Start-of-step pass over the nodes modified in the previous step
(`ComputeInternalForces`, lines 1081-1095). -/
def resetPass : Grid → List Cell → Grid
  | g, [] => g
  | g, ij :: rest =>
    match gridLookup g ij with
    | some nr => resetPass (gridInsert g ij (resetNode nr)) rest
    | none => resetPass g rest

/-- Post-ray-cast insertion of fresh node records for hit cells absent from the
store (`ComputeInternalForces`, lines 1261-1273): the new record is built from
the base heightfield height and normal at the cell. -/
def ensurePass (initH : Cell → ℚ) (initN : Cell → Vec3) : Grid → List HitInput → Grid
  | g, [] => g
  | g, h :: rest =>
    match gridLookup g h.cell with
    | some _ => ensurePass initH initN g rest
    | none =>
      ensurePass initH initN
        (gridInsert g h.cell (NodeRecord.fresh (initH h.cell) (initH h.cell) (initN h.cell)))
        rest

/-- The hit-processing loop (`ComputeInternalForces`, lines 1377-1525): each
hit applies `updateHitNode` to its cell's record; the cell is appended to the
modified list exactly when the update did not take the unilaterality
`continue`. -/
def processPass (dt : ℚ) : Grid → List Cell → List HitInput → Grid × List Cell
  | g, mods, [] => (g, mods)
  | g, mods, h :: rest =>
    match gridLookup g h.cell with
    | none => processPass dt g mods rest
    | some nr =>
      let r := updateHitNode h.sp h.oob h.hit_level h.Vn h.Vt dt nr
      processPass dt (gridInsert g h.cell r.1) (if r.2 then mods ++ [h.cell] else mods) rest

/-- Persistent state across steps: the grid store and the modified-this-step
list (`m_grid_map` and `m_modified_nodes`). -/
structure GridState where
  grid : Grid
  modified : List Cell
  deriving DecidableEq

/-- One completed step of `ComputeInternalForces` on the grid state, with
bulldozing disabled: reset of previously modified nodes, creation of records
for new hit cells, then the constitutive update on every hit.  The ray-cast
result of the step is the `hits` input. -/
def stepGrid (initH : Cell → ℚ) (initN : Cell → Vec3) (dt : ℚ)
    (hits : List HitInput) (st : GridState) : GridState :=
  let g1 := resetPass st.grid st.modified
  let g2 := ensurePass initH initN g1 hits
  let r := processPass dt g2 [] hits
  { grid := r.1, modified := r.2 }

/-- Replay of the hit-processing loop that counts the hits whose elastic-trial
pressure satisfies `pred`, following exactly the grid evolution of
`processPass`. -/
def countTrialPass (dt : ℚ) (pred : ℚ → Bool) : Grid → List HitInput → ℕ
  | _, [] => 0
  | g, h :: rest =>
    match gridLookup g h.cell with
    | none => countTrialPass dt pred g rest
    | some nr =>
      let r := updateHitNode h.sp h.oob h.hit_level h.Vn h.Vt dt nr
      (if pred (elasticTrial h.sp h.hit_level nr) then 1 else 0) +
        countTrialPass dt pred (gridInsert g h.cell r.1) rest

/-- Number of ray hits of a step whose elastic-trial pressure was
non-negative. -/
def countNonnegTrialHits (initH : Cell → ℚ) (initN : Cell → Vec3) (dt : ℚ)
    (hits : List HitInput) (st : GridState) : ℕ :=
  countTrialPass dt (fun t => decide (0 ≤ t))
    (ensurePass initH initN (resetPass st.grid st.modified) hits) hits

/-- Number of ray hits of a step whose elastic-trial pressure was (strictly)
positive. -/
def countPosTrialHits (initH : Cell → ℚ) (initN : Cell → Vec3) (dt : ℚ)
    (hits : List HitInput) (st : GridState) : ℕ :=
  countTrialPass dt (fun t => decide (0 < t))
    (ensurePass initH initN (resetPass st.grid st.modified) hits) hits

/-- Bulldozing material transfer onto a node (`SCMLoaderOld::AddMaterialToNode`,
lines 1717-1724). -/
def addMaterialToNode (amount : ℚ) (nr : NodeRecord) : NodeRecord :=
  let amt := if nr.hit_level - nr.level < amount then nr.hit_level - nr.level else amount
  let mrem :=
    if nr.hit_level - nr.level < amount then
      nr.massremainder + (amount - (nr.hit_level - nr.level))
    else nr.massremainder
  { nr with
    massremainder := mrem
    level := nr.level + amt
    level_initial := nr.level_initial + amt }

/-- Bulldozing material removal from a node
(`SCMLoaderOld::RemoveMaterialFromNode`, lines 1726-1736).  Note that in the
first branch the source leaves `amount` untouched (the statement `amount = 0`
is commented out), so `level` is decreased by the full requested amount even
though `massremainder` already absorbed it. -/
def removeMaterialFromNode (amount : ℚ) (nr : NodeRecord) : NodeRecord :=
  if amount < nr.massremainder then
    { nr with
      massremainder := nr.massremainder - amount
      level := nr.level - amount
      level_initial := nr.level_initial - amount }
  else if nr.massremainder < amount ∧ 0 < nr.massremainder then
    { nr with
      massremainder := 0
      level := nr.level - (amount - nr.massremainder)
      level_initial := nr.level_initial - (amount - nr.massremainder) }
  else
    { nr with
      level := nr.level - amount
      level_initial := nr.level_initial - amount }

/-- Checkpoint emission with `all_nodes = true`
(`SCMLoaderOld::GetModifiedNodes`, lines 1825-1828): every store entry is
reported as a `(cell, level)` pair. -/
def getModifiedNodesAll (g : Grid) : List (Cell × ℚ) :=
  g.map (fun e => (e.1, e.2.level))

/-- Checkpoint restore (`SCMLoaderOld::SetModifiedNodes`, lines 1842-1846):
each listed cell gets a brand-new record `NodeRecord(level, level, initNormal)`
written through `m_grid_map[·] = ·`. -/
def setModifiedNodes (initN : Cell → Vec3) : Grid → List (Cell × ℚ) → Grid
  | g, [] => g
  | g, n :: rest =>
    setModifiedNodes initN (gridInsert g n.1 (NodeRecord.fresh n.2 n.2 (initN n.1))) rest

/-- Height query at a grid vertex (`SCMLoaderOld::GetHeight`, lines 847-855):
the store's `level` if the cell is present, else the base heightfield. -/
def getHeight (initH : Cell → ℚ) (g : Grid) (ij : Cell) : ℚ :=
  match gridLookup g ij with
  | some nr => nr.level
  | none => initH ij

/-- Global soil-parameter state of the loader (the `m_Bekker_*`, `m_Mohr_*`,
`m_Janosi_shear`, `m_elastic_K`, `m_damping_R` members). -/
structure TerrainParams where
  Bekker_Kphi : ℚ
  Bekker_Kc : ℚ
  Bekker_n : ℚ
  Mohr_cohesion : ℚ
  Mohr_mu : ℚ
  Janosi_shear : ℚ
  elastic_K : ℚ
  damping_R : ℚ
  deriving DecidableEq

/-- `SCMTerrainOld::SetSoilParameters` (lines 144-162).  `tanDeg φ` models
`std::tan(φ * CH_DEG_TO_RAD)`.  The stored elastic stiffness is
`max(elastic_K, Bekker_Kphi)`. -/
def setSoilParameters (tanDeg : ℚ → ℚ) (st : TerrainParams)
    (Bekker_Kphi Bekker_Kc Bekker_n Mohr_cohesion Mohr_friction Janosi_shear
      elastic_K damping_R : ℚ) : TerrainParams :=
  { st with
    Bekker_Kphi := Bekker_Kphi
    Bekker_Kc := Bekker_Kc
    Bekker_n := Bekker_n
    Mohr_cohesion := Mohr_cohesion
    Mohr_mu := tanDeg Mohr_friction
    Janosi_shear := Janosi_shear
    elastic_K := max elastic_K Bekker_Kphi
    damping_R := damping_R }

/-- Axis-aligned bounding box (models `ChAABB`). -/
structure AABB where
  min : Vec3
  max : Vec3
  deriving DecidableEq

/-- Modelled from the spec: `ChAABB::IsInverted` lives in the external Chrono
core, not in this repository.  Per the spec's error taxonomy, a boundary AABB
is inverted when its minimum corner exceeds its maximum corner in some
component. -/
def AABB.isInverted (a : AABB) : Bool :=
  decide (a.max.x < a.min.x) || decide (a.max.y < a.min.y) || decide (a.max.z < a.min.z)

/-- Boundary-related loader state (the `m_aabb` and `m_boundary` members). -/
structure BoundaryState where
  aabb : AABB
  boundary : Bool
  deriving DecidableEq

/-- `SCMTerrainOld::SetBoundary` (lines 215-221): an inverted box is silently
ignored; otherwise the box is stored and the boundary flag enabled. -/
def setBoundary (st : BoundaryState) (a : AABB) : BoundaryState :=
  if a.isInverted then st else { aabb := a, boundary := true }

/-- The boundary rejection applied to cell coordinates by the ray-cast loop
(`ComputeInternalForces`, lines 1229-1232): with the boundary enabled, cells
whose SCM-plane coordinates fall outside the box's (x, y) range are skipped. -/
def boundaryReject (st : BoundaryState) (x y : ℚ) : Bool :=
  st.boundary &&
    (decide (st.aabb.max.x < x) || decide (x < st.aabb.min.x) ||
      decide (st.aabb.max.y < y) || decide (y < st.aabb.min.y))

/-- Per-patch Bekker shape factor `1/b` from the hull's area and perimeter
(`ComputeInternalForces`, lines 1347-1356). -/
def computeOob (area perimeter : ℚ) : ℚ :=
  if area < 1 / 1000000 then 0 else perimeter / (2 * area)

/-- Terrain initialization mode (models `SCMLoaderOld::PatchType`). -/
inductive PatchType where
  | flat
  | heightMap
  | triMesh
  deriving DecidableEq

/-- `ChClamp` of a cell index to the grid interior, used by the base-height
query. -/
def clampCell (loc : Cell) (nx ny : ℤ) : Cell :=
  (min (max loc.1 (-nx)) nx, min (max loc.2 (-ny)) ny)

/-- `SCMLoaderOld::GetInitHeight` at a grid vertex (lines 813-826): zero for a
flat patch; the (index-clamped) stored heights matrix otherwise. -/
def getInitHeight (pt : PatchType) (heights : Cell → ℚ) (nx ny : ℤ) (loc : Cell) : ℚ :=
  match pt with
  | PatchType.flat => 0
  | PatchType.heightMap => heights (clampCell loc nx ny)
  | PatchType.triMesh => heights (clampCell loc nx ny)

/-- Grid sizing produced by flat initialization. -/
structure FlatInit where
  nx : ℤ
  ny : ℤ
  delta : ℚ
  area : ℚ
  deriving DecidableEq

/-- `SCMLoaderOld::Initialize(sizeX, sizeY, delta)` for a flat patch
(lines 433-448, visualization elided): half grid counts by ceiling division,
actual spacing `sizeX / (2 * nx)`, cell area the square of the spacing. -/
def initFlat (sizeX sizeY delta : ℚ) : FlatInit :=
  let nx : ℤ := ⌈sizeX / 2 / delta⌉
  let ny : ℤ := ⌈sizeY / 2 / delta⌉
  let d : ℚ := sizeX / (2 * (nx : ℚ))
  { nx := nx, ny := ny, delta := d, area := d ^ 2 }

/-- Field accessors on the grid store with a zero default, used to state
concrete end-of-step facts. -/
def sigmaAt (g : Grid) (ij : Cell) : ℚ :=
  match gridLookup g ij with
  | some nr => nr.sigma
  | none => 0

def yieldAt (g : Grid) (ij : Cell) : ℚ :=
  match gridLookup g ij with
  | some nr => nr.sigma_yield
  | none => 0

def sinkageAt (g : Grid) (ij : Cell) : ℚ :=
  match gridLookup g ij with
  | some nr => nr.sinkage
  | none => 0

def sinkageElasticAt (g : Grid) (ij : Cell) : ℚ :=
  match gridLookup g ij with
  | some nr => nr.sinkage_elastic
  | none => 0

def sinkagePlasticAt (g : Grid) (ij : Cell) : ℚ :=
  match gridLookup g ij with
  | some nr => nr.sinkage_plastic
  | none => 0

/-- Flat base heightfield and its normal, as used by concrete scenarios. -/
def flatH : Cell → ℚ := fun _ => 0

def flatN : Cell → Vec3 := fun _ => ⟨0, 0, 1⟩

def emptyState : GridState := ⟨[], []⟩

/-- Soil parameters for the damping scenario: unit elastic stiffness, unit
damping, no Bekker cohesion or friction modulus, exponent `n = 1`. -/
def spDamp : SoilParams :=
  { Bekker_Kphi := 0
    Bekker_Kc := 0
    Mohr_cohesion := 0
    Mohr_mu := 0
    Janosi_shear := 1
    elastic_K := 1
    damping_R := 1
    powN := fun s => s
    expNeg := fun _ => 0 }

/-- A ray hit on a grazing contact (`hit_level` equal to the undeformed
surface) whose contactable separates upward at speed 10. -/
def hitDampCex : HitInput := ⟨(0, 0), 0, 10, 0, 0, spDamp⟩

/-- Soil parameters for the damping witness: `powN s = s * s` (exponent 2),
so that non-negativity of the power is available. -/
def spDampWit : SoilParams :=
  { spDamp with Bekker_Kphi := 1, powN := fun s => s * s }

/-- A compressing hit (`Vn = -1`) half a unit below the surface. -/
def hitDampWit : HitInput := ⟨(0, 0), -1/2, -1, 0, 0, spDampWit⟩

/-- Soil parameters for the sinkage-decomposition scenario: stiffness 2,
`Kphi = 1`, exponent `n = 1`, no damping. -/
def spDecomp : SoilParams :=
  { Bekker_Kphi := 1
    Bekker_Kc := 0
    Mohr_cohesion := 0
    Mohr_mu := 0
    Janosi_shear := 1
    elastic_K := 2
    damping_R := 0
    powN := fun s => s
    expNeg := fun _ => 0 }

/-- A hit one unit below the flat surface, producing a plastic return with a
non-zero elastic sinkage. -/
def hitDecomp : HitInput := ⟨(0, 0), -1, 0, 0, 0, spDecomp⟩

/-- Soil parameters for the yield-monotonicity scenario: stiffness 100,
`Kc = 1`, `Kphi = 1`, exponent `n = 1`. -/
def spYield : SoilParams :=
  { Bekker_Kphi := 1
    Bekker_Kc := 1
    Mohr_cohesion := 0
    Mohr_mu := 0
    Janosi_shear := 1
    elastic_K := 100
    damping_R := 0
    powN := fun s => s
    expNeg := fun _ => 0 }

/-- First-step hit: patch shape factor 10, one unit of sinkage. -/
def hitYield1 : HitInput := ⟨(0, 0), -1, 0, 0, 10, spYield⟩

/-- Second-step hit on the same cell: degenerate patch (`oob = 0`), two units
of sinkage. -/
def hitYield2 : HitInput := ⟨(0, 0), -2, 0, 0, 0, spYield⟩

/-- A hit whose elastic-trial pressure is exactly zero (hit at the undeformed
surface of a fresh flat node). -/
def hitZeroTrial : HitInput := ⟨(0, 0), 0, 0, 0, 0, spDecomp⟩

/-- A node with parked material: `massremainder = 5`, `level = 10`, no hit this
step. -/
def nrRemove : NodeRecord :=
  { NodeRecord.fresh 10 10 ⟨0, 0, 1⟩ with massremainder := 5 }

/-- A two-node grid store used to exercise the checkpoint round-trip. -/
def gRoundtrip : Grid :=
  [((0, 0), { NodeRecord.fresh 3 (5/2) ⟨0, 0, 1⟩ with sigma := 7, kshear := 2 }),
   ((1, 0), NodeRecord.fresh 1 2 ⟨0, 0, 1⟩)]

/-- A properly ordered boundary box. -/
def aabbGood : AABB := ⟨⟨-1, -1, -1⟩, ⟨1, 1, 1⟩⟩

/-- An inverted boundary box (`min.x > max.x`). -/
def aabbInv : AABB := ⟨⟨1, 0, 0⟩, ⟨0, 1, 1⟩⟩

/-- Initial boundary state: no boundary configured. -/
def bnd0 : BoundaryState := ⟨⟨⟨0, 0, 0⟩, ⟨0, 0, 0⟩⟩, false⟩

end SCM

namespace SCM

theorem gridLookup_insert_self (g : Grid) (ij : Cell) (nr : NodeRecord) :
    gridLookup (gridInsert g ij nr) ij = some nr := by
  induction g with
  | nil => simp [gridInsert, gridLookup]
  | cons e g ih =>
    by_cases h : e.1 = ij
    · simp [gridInsert, h, gridLookup]
    · simp [gridInsert, h, gridLookup, ih]

theorem gridLookup_insert_ne (g : Grid) (ij ij' : Cell) (nr : NodeRecord) (h : ij' ≠ ij) :
    gridLookup (gridInsert g ij nr) ij' = gridLookup g ij' := by
  induction g with
  | nil => simp [gridInsert, gridLookup, Ne.symm h]
  | cons e g ih =>
    by_cases he : e.1 = ij
    · simp [gridInsert, he, gridLookup, Ne.symm h, h]
    · by_cases he2 : e.1 = ij'
      · simp [gridInsert, he, gridLookup, he2, h]
      · simp [gridInsert, he, gridLookup, he2, ih]

theorem mem_gridInsert {g : Grid} {ij : Cell} {nr : NodeRecord} {e : Cell × NodeRecord}
    (h : e ∈ gridInsert g ij nr) : e = (ij, nr) ∨ e ∈ g := by
  induction g with
  | nil => simpa [gridInsert] using h
  | cons f g ih =>
    by_cases hf : f.1 = ij
    · simp only [gridInsert, hf, if_pos] at h
      rcases List.mem_cons.mp h with h | h
      · exact Or.inl h
      · exact Or.inr (List.mem_cons_of_mem _ h)
    · simp only [gridInsert, hf, if_neg, ite_false] at h
      rcases List.mem_cons.mp h with h | h
      · exact Or.inr (by simp [h])
      · rcases ih h with h' | h'
        · exact Or.inl h'
        · exact Or.inr (List.mem_cons_of_mem _ h')

theorem gridLookup_mem {g : Grid} {ij : Cell} {nr : NodeRecord}
    (h : gridLookup g ij = some nr) : (ij, nr) ∈ g := by
  induction g with
  | nil => simp [gridLookup] at h
  | cons e g ih =>
    by_cases he : e.1 = ij
    · simp only [gridLookup, he, if_pos, Option.some.injEq] at h
      have he2 : e = (ij, nr) := by
        cases e
        simp_all
      rw [← he2]
      exact List.mem_cons_self _ _
    · simp only [gridLookup, he, ite_false, if_neg] at h
      exact List.mem_cons_of_mem _ (ih h)

theorem updateHitNode_fst_sigma_nonneg (sp : SoilParams) (oob hl Vn Vt dt : ℚ)
    (nr : NodeRecord) (hdamp : Vn * sp.damping_R ≤ 0)
    (hcoef : 0 ≤ oob * sp.Bekker_Kc + sp.Bekker_Kphi)
    (hpow : ∀ s, 0 ≤ sp.powN s) :
    0 ≤ (updateHitNode sp oob hl Vn Vt dt nr).1.sigma := by
  simp only [updateHitNode]
  split_ifs with h1 h2
  · simp
  · dsimp only
    have hb := mul_nonneg hcoef (hpow (nr.normal.z * (nr.level_initial - hl)))
    linarith
  · dsimp only
    linarith [not_lt.mp h1]

theorem updateHitNode_snd (sp : SoilParams) (oob hl Vn Vt dt : ℚ) (nr : NodeRecord) :
    (updateHitNode sp oob hl Vn Vt dt nr).2 = decide (0 ≤ elasticTrial sp hl nr) := by
  simp only [updateHitNode, elasticTrial]
  split_ifs with h1 h2
  · rw [decide_eq_false (not_le.mpr h1)]
  · rw [decide_eq_true (not_lt.mp h1)]
  · rw [decide_eq_true (not_lt.mp h1)]

theorem updateHitNode_decomp (sp : SoilParams) (oob hl Vn Vt dt : ℚ) (nr : NodeRecord)
    (h : (updateHitNode sp oob hl Vn Vt dt nr).2 = true) :
    (updateHitNode sp oob hl Vn Vt dt nr).1.sinkage_elastic +
      (updateHitNode sp oob hl Vn Vt dt nr).1.sinkage_plastic =
      (updateHitNode sp oob hl Vn Vt dt nr).1.sinkage := by
  simp only [updateHitNode] at h ⊢
  split_ifs at h ⊢ with h1 h2
  · dsimp only
    ring
  · dsimp only
    ring

theorem updateHitNode_yield_mono (sp : SoilParams) (oob hl Vn Vt dt sy : ℚ)
    (nr : NodeRecord) (hK : 0 < sp.elastic_K)
    (hC : 0 ≤ oob * sp.Bekker_Kc + sp.Bekker_Kphi)
    (hmono : ∀ a b : ℚ, a ≤ b → sp.powN a ≤ sp.powN b)
    (hyield : nr.sigma_yield = (oob * sp.Bekker_Kc + sp.Bekker_Kphi) * sp.powN sy)
    (hplastic : nr.sinkage_plastic = sy - nr.sigma_yield / sp.elastic_K) :
    nr.sigma_yield ≤ (updateHitNode sp oob hl Vn Vt dt nr).1.sigma_yield := by
  simp only [updateHitNode]
  split_ifs with h1 h2
  · dsimp only
    exact le_refl _
  · dsimp only
    have hKne : sp.elastic_K ≠ 0 := ne_of_gt hK
    have htrial : sp.elastic_K * (nr.normal.z * (nr.level_initial - hl) - nr.sinkage_plastic)
        = sp.elastic_K * (nr.normal.z * (nr.level_initial - hl) - sy) + nr.sigma_yield := by
      rw [hplastic]
      field_simp
      ring
    rw [htrial] at h2
    have hpos : 0 < sp.elastic_K * (nr.normal.z * (nr.level_initial - hl) - sy) := by
      linarith
    have h3 : sy ≤ nr.normal.z * (nr.level_initial - hl) := by
      rcases mul_pos_iff.mp hpos with ⟨_, hb⟩ | ⟨ha, _⟩
      · linarith
      · linarith
    calc nr.sigma_yield
        = (oob * sp.Bekker_Kc + sp.Bekker_Kphi) * sp.powN sy := hyield
      _ ≤ (oob * sp.Bekker_Kc + sp.Bekker_Kphi) *
            sp.powN (nr.normal.z * (nr.level_initial - hl)) :=
          mul_le_mul_of_nonneg_left (hmono sy _ h3) hC
  · dsimp only
    exact le_refl _

theorem resetPass_mem_sigma (l : List Cell) :
    ∀ g : Grid, (∀ e ∈ g, 0 ≤ e.2.sigma) → ∀ e ∈ resetPass g l, 0 ≤ e.2.sigma := by
  induction l with
  | nil =>
    intro g hg
    simpa [resetPass] using hg
  | cons ij rest ih =>
    intro g hg
    simp only [resetPass]
    cases hq : gridLookup g ij with
    | none => exact ih g hg
    | some nr =>
      refine ih _ ?_
      intro e he
      rcases mem_gridInsert he with he | he
      · simp [he, resetNode]
      · exact hg e he

theorem ensurePass_mem_sigma (initH : Cell → ℚ) (initN : Cell → Vec3)
    (hits : List HitInput) :
    ∀ g : Grid, (∀ e ∈ g, 0 ≤ e.2.sigma) →
      ∀ e ∈ ensurePass initH initN g hits, 0 ≤ e.2.sigma := by
  induction hits with
  | nil =>
    intro g hg
    simpa [ensurePass] using hg
  | cons h rest ih =>
    intro g hg
    simp only [ensurePass]
    cases hq : gridLookup g h.cell with
    | some nr => exact ih g hg
    | none =>
      refine ih _ ?_
      intro e he
      rcases mem_gridInsert he with he | he
      · simp [he, NodeRecord.fresh]
      · exact hg e he

theorem processPass_mem_sigma (dt : ℚ) (hits : List HitInput) :
    ∀ g mods, (∀ e ∈ g, 0 ≤ e.2.sigma) →
      (∀ h ∈ hits, h.Vn * h.sp.damping_R ≤ 0 ∧
        0 ≤ h.oob * h.sp.Bekker_Kc + h.sp.Bekker_Kphi ∧ ∀ s, 0 ≤ h.sp.powN s) →
      ∀ e ∈ (processPass dt g mods hits).1, 0 ≤ e.2.sigma := by
  induction hits with
  | nil =>
    intro g mods hg _
    simpa [processPass] using hg
  | cons h rest ih =>
    intro g mods hg hh
    simp only [processPass]
    cases hq : gridLookup g h.cell with
    | none => exact ih g mods hg (fun x hx => hh x (List.mem_cons_of_mem _ hx))
    | some nr =>
      refine ih _ _ ?_ (fun x hx => hh x (List.mem_cons_of_mem _ hx))
      intro e he
      rcases mem_gridInsert he with he | he
      · obtain ⟨hd, hc, hp⟩ := hh h (List.mem_cons_self _ _)
        rw [he]
        exact updateHitNode_fst_sigma_nonneg _ _ _ _ _ _ _ hd hc hp
      · exact hg e he

theorem processPass_length (dt : ℚ) (hits : List HitInput) :
    ∀ g mods, ((processPass dt g mods hits).2).length
      = mods.length + countTrialPass dt (fun t => decide (0 ≤ t)) g hits := by
  induction hits with
  | nil =>
    intro g mods
    simp [processPass, countTrialPass]
  | cons h rest ih =>
    intro g mods
    simp only [processPass, countTrialPass]
    cases hq : gridLookup g h.cell with
    | none => exact ih g mods
    | some nr =>
      dsimp only
      by_cases htr : 0 ≤ elasticTrial h.sp h.hit_level nr
      · have hflag : (updateHitNode h.sp h.oob h.hit_level h.Vn h.Vt dt nr).2 = true := by
          rw [updateHitNode_snd]
          exact decide_eq_true htr
        rw [hflag, decide_eq_true htr]
        simp only [if_true]
        rw [ih]
        simp [List.length_append]
        omega
      · have hflag : (updateHitNode h.sp h.oob h.hit_level h.Vn h.Vt dt nr).2 = false := by
          rw [updateHitNode_snd]
          exact decide_eq_false htr
        rw [hflag, decide_eq_false htr]
        simp only [Bool.false_eq_true, if_false]
        rw [ih]
        omega

theorem processPass_decomp (dt : ℚ) (hits : List HitInput) :
    ∀ g mods,
      (∀ ij ∈ mods, ∀ nr : NodeRecord, gridLookup g ij = some nr →
        nr.sinkage_elastic + nr.sinkage_plastic = nr.sinkage) →
      (∀ h ∈ hits, ∀ ij ∈ mods, h.cell ≠ ij) →
      (hits.map HitInput.cell).Nodup →
      ∀ ij ∈ (processPass dt g mods hits).2, ∀ nr : NodeRecord,
        gridLookup (processPass dt g mods hits).1 ij = some nr →
        nr.sinkage_elastic + nr.sinkage_plastic = nr.sinkage := by
  induction hits with
  | nil =>
    intro g mods h1 _ _
    simpa [processPass] using h1
  | cons h rest ih =>
    intro g mods h1 h2 h3
    rw [List.map_cons, List.nodup_cons] at h3
    obtain ⟨hnotin, hnodup⟩ := h3
    simp only [processPass]
    cases hq : gridLookup g h.cell with
    | none =>
      exact ih g mods h1 (fun x hx => h2 x (List.mem_cons_of_mem _ hx)) hnodup
    | some nr =>
      dsimp only
      by_cases hflag : (updateHitNode h.sp h.oob h.hit_level h.Vn h.Vt dt nr).2 = true
      · rw [hflag]
        simp only [if_true]
        refine ih _ _ ?_ ?_ hnodup
        · intro ij hij nr' hlook
          rcases List.mem_append.mp hij with hij | hij
          · have hne : ij ≠ h.cell := fun hEq => (h2 h (List.mem_cons_self _ _) ij hij) hEq.symm
            rw [gridLookup_insert_ne _ _ _ _ hne] at hlook
            exact h1 ij hij nr' hlook
          · have hij2 : ij = h.cell := by simpa using hij
            subst hij2
            rw [gridLookup_insert_self] at hlook
            have hr := Option.some.inj hlook
            rw [← hr]
            exact updateHitNode_decomp _ _ _ _ _ _ _ hflag
        · intro x hx ij hij
          rcases List.mem_append.mp hij with hij | hij
          · exact h2 x (List.mem_cons_of_mem _ hx) ij hij
          · have hij2 : ij = h.cell := by simpa using hij
            subst hij2
            intro hEq
            exact hnotin (hEq ▸ List.mem_map_of_mem HitInput.cell hx)
      · have hflag2 : (updateHitNode h.sp h.oob h.hit_level h.Vn h.Vt dt nr).2 = false :=
          Bool.eq_false_iff.mpr hflag
        rw [hflag2]
        simp only [Bool.false_eq_true, if_false]
        refine ih _ _ ?_ (fun x hx => h2 x (List.mem_cons_of_mem _ hx)) hnodup
        intro ij hij nr' hlook
        have hne : ij ≠ h.cell := fun hEq => (h2 h (List.mem_cons_self _ _) ij hij) hEq.symm
        rw [gridLookup_insert_ne _ _ _ _ hne] at hlook
        exact h1 ij hij nr' hlook

theorem setModifiedNodes_lookup_not_mem (initN : Cell → Vec3)
    (nodes : List (Cell × ℚ)) :
    ∀ (g : Grid) (ij : Cell), ij ∉ nodes.map Prod.fst →
      gridLookup (setModifiedNodes initN g nodes) ij = gridLookup g ij := by
  induction nodes with
  | nil =>
    intro g ij _
    simp [setModifiedNodes]
  | cons n rest ih =>
    intro g ij hij
    rw [List.map_cons] at hij
    simp only [List.mem_cons, not_or] at hij
    obtain ⟨hn1, hn2⟩ := hij
    simp only [setModifiedNodes]
    rw [ih _ _ hn2, gridLookup_insert_ne _ _ _ _ hn1]

theorem setModifiedNodes_lookup_mem (initN : Cell → Vec3)
    (nodes : List (Cell × ℚ)) :
    ∀ g : Grid, (nodes.map Prod.fst).Nodup →
      ∀ p ∈ nodes, gridLookup (setModifiedNodes initN g nodes) p.1 =
        some (NodeRecord.fresh p.2 p.2 (initN p.1)) := by
  induction nodes with
  | nil =>
    intro g _ p hp
    simp at hp
  | cons n rest ih =>
    intro g hnodup p hp
    rw [List.map_cons, List.nodup_cons] at hnodup
    obtain ⟨hnotin, hnodup⟩ := hnodup
    simp only [setModifiedNodes]
    rcases List.mem_cons.mp hp with hp | hp
    · subst hp
      rw [setModifiedNodes_lookup_not_mem initN rest _ _ hnotin, gridLookup_insert_self]
    · exact ih _ hnodup p hp

theorem getModifiedNodesAll_keys (g : Grid) :
    (getModifiedNodesAll g).map Prod.fst = g.map Prod.fst := by
  rw [getModifiedNodesAll, List.map_map]
  rfl

/-- C1, counterexample: the claim "no operation of the step (including the
damping term added after plastic return) leaves `sigma < 0`" is false.  With
`damping_R = 1` and an upward (separating) normal speed `Vn = 10`, a hit with
zero elastic-trial pressure ends the step with `sigma = -10 < 0`, because the
damping contribution `-Vn * damping_R` is added after the unilateral clamp and
is itself never clamped. -/
theorem step_sigma_can_go_negative :
    sigmaAt (stepGrid flatH flatN 1 [hitDampCex] emptyState).grid (0, 0) < 0 := by
  norm_num [sigmaAt, stepGrid, resetPass, ensurePass, processPass, updateHitNode, gridLookup, gridInsert, resetNode, NodeRecord.fresh, flatH, flatN, emptyState, hitDampCex, spDamp]

/-- C1 (amended): at the end of a completed step every node of the grid store
has `sigma ≥ 0`, provided every node had `sigma ≥ 0` at the start of the step
and, for every hit, the damping contribution is non-negative
(`Vn * damping_R ≤ 0`, e.g. `damping_R = 0` or compressive contact), the
Bekker coefficient `oob * Kc + Kphi` is non-negative and the modelled power
function is non-negative.  Without the damping condition the invariant fails
(see the counterexample). -/
theorem step_sigma_nonneg (initH : Cell → ℚ) (initN : Cell → Vec3) (dt : ℚ)
    (hits : List HitInput) (st : GridState)
    (hstart : ∀ e ∈ st.grid, 0 ≤ e.2.sigma)
    (hhits : ∀ h ∈ hits, h.Vn * h.sp.damping_R ≤ 0 ∧
      0 ≤ h.oob * h.sp.Bekker_Kc + h.sp.Bekker_Kphi ∧ ∀ s, 0 ≤ h.sp.powN s) :
    ∀ e ∈ (stepGrid initH initN dt hits st).grid, 0 ≤ e.2.sigma := by
  intro e he
  have h1 := resetPass_mem_sigma st.modified st.grid hstart
  have h2 := ensurePass_mem_sigma initH initN hits _ h1
  have h3 := processPass_mem_sigma dt hits _ [] h2 hhits
  exact h3 e he

/-- C1, witness: the amended invariant evaluated on a concrete compressive hit
(`Vn = -1`, `damping_R = 1`, `Kphi = 1`, power function `s * s`). -/
theorem step_sigma_nonneg_witness :
    0 ≤ sigmaAt (stepGrid flatH flatN 1 [hitDampWit] emptyState).grid (0, 0) := by
  have H := step_sigma_nonneg flatH flatN 1 [hitDampWit] emptyState
    (fun e he => absurd he (by simp [emptyState]))
    (fun h hh => by
      rw [List.mem_singleton] at hh
      subst hh
      refine ⟨by norm_num [hitDampWit, spDampWit, spDamp],
        by norm_num [hitDampWit, spDampWit, spDamp], fun s => by
          simpa [hitDampWit, spDampWit, spDamp] using mul_self_nonneg s⟩)
  cases hq : gridLookup (stepGrid flatH flatN 1 [hitDampWit] emptyState).grid (0, 0) with
  | none =>
    simp only [sigmaAt, hq]
    exact le_refl 0
  | some nr =>
    simp only [sigmaAt, hq]
    exact H ((0, 0), nr) (gridLookup_mem hq)

/-- C2, counterexample: the decomposition `sinkage = sinkage_elastic +
sinkage_plastic` fails for a node modified in a previous step and not re-hit:
the start-of-step reset zeroes `sinkage_elastic` while leaving `sinkage` and
`sinkage_plastic` at their old values.  After a plastic hit (sinkage 1,
elastic 1/2, plastic 1/2) followed by a step with no hits, the node has
`sinkage = 1` but `sinkage_elastic + sinkage_plastic = 1/2`. -/
theorem reset_breaks_decomposition :
    sinkageElasticAt (stepGrid flatH flatN 1 []
        (stepGrid flatH flatN 1 [hitDecomp] emptyState)).grid (0, 0) +
      sinkagePlasticAt (stepGrid flatH flatN 1 []
        (stepGrid flatH flatN 1 [hitDecomp] emptyState)).grid (0, 0) ≠
      sinkageAt (stepGrid flatH flatN 1 []
        (stepGrid flatH flatN 1 [hitDecomp] emptyState)).grid (0, 0) := by
  norm_num [sinkageAt, sinkageElasticAt, sinkagePlasticAt, stepGrid, resetPass, ensurePass, processPass, updateHitNode, gridLookup, gridInsert, resetNode, NodeRecord.fresh, flatH, flatN, emptyState, hitDecomp, spDecomp]

/-- C2 (amended): the decomposition `sinkage_elastic + sinkage_plastic =
sinkage` holds at the end of a step for every node marked modified during that
step (the cells whose hit survived the unilateral clamp).  For carried-over
nodes the start-of-step reset destroys the decomposition whenever the old
elastic sinkage was non-zero (see the counterexample). -/
theorem step_decomposition (initH : Cell → ℚ) (initN : Cell → Vec3) (dt : ℚ)
    (hits : List HitInput) (st : GridState)
    (hnodup : (hits.map HitInput.cell).Nodup) :
    ∀ ij ∈ (stepGrid initH initN dt hits st).modified, ∀ nr : NodeRecord,
      gridLookup (stepGrid initH initN dt hits st).grid ij = some nr →
      nr.sinkage_elastic + nr.sinkage_plastic = nr.sinkage := by
  intro ij hij nr hlook
  exact processPass_decomp dt hits _ [] (by simp) (by simp) hnodup ij hij nr hlook

/-- C2, witness: the amended decomposition evaluated after one concrete
plastic hit. -/
theorem step_decomposition_witness :
    sinkageElasticAt (stepGrid flatH flatN 1 [hitDecomp] emptyState).grid (0, 0) +
      sinkagePlasticAt (stepGrid flatH flatN 1 [hitDecomp] emptyState).grid (0, 0) =
      sinkageAt (stepGrid flatH flatN 1 [hitDecomp] emptyState).grid (0, 0) := by
  have H := step_decomposition flatH flatN 1 [hitDecomp] emptyState (by simp)
  have hmem : (0, 0) ∈ (stepGrid flatH flatN 1 [hitDecomp] emptyState).modified := by
    norm_num [stepGrid, resetPass, ensurePass, processPass, updateHitNode, gridLookup, gridInsert, resetNode, NodeRecord.fresh, flatH, flatN, emptyState, hitDecomp, spDecomp]
  cases hq : gridLookup (stepGrid flatH flatN 1 [hitDecomp] emptyState).grid (0, 0) with
  | none => simp only [sinkageElasticAt, sinkagePlasticAt, sinkageAt, hq]; norm_num
  | some nr =>
    have hd := H (0, 0) hmem nr hq
    simp only [sinkageElasticAt, sinkagePlasticAt, sinkageAt, hq]
    exact hd

/-- C3, counterexample: `sigma_yield` is NOT monotone non-decreasing when the
patch shape factor changes between steps.  A first hit in a patch with
`oob = 10` sets `sigma_yield = 11`; a deeper second hit in a degenerate patch
(`oob = 0`) triggers the plastic return again and overwrites `sigma_yield`
with the smaller Bekker value 2. -/
theorem sigma_yield_can_decrease :
    yieldAt (stepGrid flatH flatN 1 [hitYield2]
        (stepGrid flatH flatN 1 [hitYield1] emptyState)).grid (0, 0) <
      yieldAt (stepGrid flatH flatN 1 [hitYield1] emptyState).grid (0, 0) := by
  norm_num [yieldAt, stepGrid, resetPass, ensurePass, processPass, updateHitNode, gridLookup, gridInsert, resetNode, NodeRecord.fresh, flatH, flatN, emptyState, hitYield1, hitYield2, spYield]

/-- C3 (amended): a single constitutive update never decreases `sigma_yield`
as long as the Bekker coefficient `C = oob * Kc + Kphi` and the power function
are the same as those of the update that set the current yield value — stated
through the invariant that the current yield and plastic sinkage come from a
past return at some sinkage `sy` (`sigma_yield = C * powN sy`,
`sinkage_plastic = sy - sigma_yield / K`), with `K > 0`, `C ≥ 0` and `powN`
monotone.  When the coefficient changes between steps the yield can drop (see
the counterexample). -/
theorem update_sigma_yield_mono (sp : SoilParams) (oob hl Vn Vt dt sy : ℚ)
    (nr : NodeRecord) (hK : 0 < sp.elastic_K)
    (hC : 0 ≤ oob * sp.Bekker_Kc + sp.Bekker_Kphi)
    (hmono : ∀ a b : ℚ, a ≤ b → sp.powN a ≤ sp.powN b)
    (hyield : nr.sigma_yield = (oob * sp.Bekker_Kc + sp.Bekker_Kphi) * sp.powN sy)
    (hplastic : nr.sinkage_plastic = sy - nr.sigma_yield / sp.elastic_K) :
    nr.sigma_yield ≤ (updateHitNode sp oob hl Vn Vt dt nr).1.sigma_yield :=
  updateHitNode_yield_mono sp oob hl Vn Vt dt sy nr hK hC hmono hyield hplastic

/-- C3, witness: the amended monotonicity evaluated on a fresh node
(`sigma_yield = 0`, `sinkage_plastic = 0`, taking `sy = 0`). -/
theorem update_sigma_yield_mono_witness :
    (NodeRecord.fresh 0 0 ⟨0, 0, 1⟩).sigma_yield ≤
      (updateHitNode spYield 10 (-1) 0 0 1 (NodeRecord.fresh 0 0 ⟨0, 0, 1⟩)).1.sigma_yield := by
  apply update_sigma_yield_mono spYield 10 (-1) 0 0 1 0
  · norm_num [spYield]
  · norm_num [spYield]
  · intro a b hab
    simpa [spYield] using hab
  · norm_num [spYield, NodeRecord.fresh]
  · norm_num [spYield, NodeRecord.fresh]

/-- C4: evaluation at the failing input.  On a node with `massremainder = 5`
and `level = 10`, `RemoveMaterialFromNode(2)` decreases the remainder to 3 AND
still lowers `level` (and `level_initial`) by the full amount, to 8 — the
requested amount is removed twice, contradicting the claimed
"drain massremainder before reducing level" (the statement `amount = 0` in the
first branch of the source is commented out). -/
theorem removeMaterial_double_removal :
    (removeMaterialFromNode 2 nrRemove).massremainder = 3 ∧
      (removeMaterialFromNode 2 nrRemove).level = 8 ∧
      (removeMaterialFromNode 2 nrRemove).level_initial = 8 := by
  norm_num [removeMaterialFromNode, nrRemove, NodeRecord.fresh]

/-- C5, counterexample: a hit whose elastic-trial pressure is exactly zero is
NOT clamped (the test is `sigma < 0`) and IS marked modified, so the number of
modified nodes (1) exceeds the number of hits with strictly positive trial
pressure (0). -/
theorem modified_count_ne_positive_trials :
    ((stepGrid flatH flatN 1 [hitZeroTrial] emptyState).modified).length = 1 ∧
      countPosTrialHits flatH flatN 1 [hitZeroTrial] emptyState = 0 := by
  constructor
  · norm_num [stepGrid, resetPass, ensurePass, processPass, updateHitNode, gridLookup, gridInsert, resetNode, NodeRecord.fresh, flatH, flatN, emptyState, hitZeroTrial, spDecomp]
  · norm_num [countPosTrialHits, countTrialPass, elasticTrial, stepGrid, resetPass, ensurePass, processPass, updateHitNode, gridLookup, gridInsert, resetNode, NodeRecord.fresh, flatH, flatN, emptyState, hitZeroTrial, spDecomp]

/-- C5 (amended): with bulldozing disabled, the number of nodes marked
modified during a step equals the number of ray hits whose elastic-trial
pressure was NON-NEGATIVE (a strictly negative trial is clamped to zero,
not marked, and skipped before force accumulation; an exactly-zero trial is
kept). -/
theorem step_modified_count (initH : Cell → ℚ) (initN : Cell → Vec3) (dt : ℚ)
    (hits : List HitInput) (st : GridState) :
    ((stepGrid initH initN dt hits st).modified).length =
      countNonnegTrialHits initH initN dt hits st := by
  have h := processPass_length dt hits
    (ensurePass initH initN (resetPass st.grid st.modified) hits) []
  simpa [stepGrid, countNonnegTrialHits] using h

/-- C6: the round-trip `SetModifiedNodes(GetModifiedNodes(true))` applied to a
fresh instance restores `level` at every reported cell (`GetHeight` returns
the recorded value), sets `level_initial` equal to the restored level and
`normal` to the base-heightfield normal, and resets every other per-node field
to its default (the looked-up record is exactly
`NodeRecord(level, level, initNormal)`). -/
theorem roundtrip_restores (initH : Cell → ℚ) (initN : Cell → Vec3) (g : Grid)
    (hnodup : (g.map Prod.fst).Nodup) :
    ∀ p ∈ getModifiedNodesAll g,
      gridLookup (setModifiedNodes initN [] (getModifiedNodesAll g)) p.1 =
        some (NodeRecord.fresh p.2 p.2 (initN p.1)) ∧
      getHeight initH (setModifiedNodes initN [] (getModifiedNodesAll g)) p.1 = p.2 := by
  intro p hp
  have hkeys : ((getModifiedNodesAll g).map Prod.fst).Nodup := by
    rw [getModifiedNodesAll_keys]
    exact hnodup
  have hl := setModifiedNodes_lookup_mem initN (getModifiedNodesAll g) [] hkeys p hp
  refine ⟨hl, ?_⟩
  simp [getHeight, hl, NodeRecord.fresh]

/-- C6, witness: the round-trip evaluated on a concrete two-node store. -/
theorem roundtrip_restores_witness :
    gridLookup (setModifiedNodes flatN [] (getModifiedNodesAll gRoundtrip)) (0, 0) =
        some (NodeRecord.fresh (5/2) (5/2) (flatN (0, 0))) ∧
      getHeight flatH (setModifiedNodes flatN [] (getModifiedNodesAll gRoundtrip)) (0, 0) =
        5/2 :=
  roundtrip_restores flatH flatN gRoundtrip (by decide) ((0, 0), 5/2)
    (by norm_num [getModifiedNodesAll, gRoundtrip, NodeRecord.fresh])

/-- C7: after every call to `SetSoilParameters` the stored elastic stiffness
equals `max(elastic_K, Bekker_Kphi)`, so the invariant
`Bekker_Kphi ≤ elastic_K` holds for all parameter settings made through this
interface (the documented precondition is enforced by clamping, not
rejected). -/
theorem setSoilParameters_clamps_elastic (tanDeg : ℚ → ℚ) (st : TerrainParams)
    (Kphi Kc n c phi J K R : ℚ) :
    (setSoilParameters tanDeg st Kphi Kc n c phi J K R).elastic_K = max K Kphi ∧
      (setSoilParameters tanDeg st Kphi Kc n c phi J K R).Bekker_Kphi ≤
        (setSoilParameters tanDeg st Kphi Kc n c phi J K R).elastic_K := by
  constructor
  · rfl
  · simp [setSoilParameters]

/-- C8: `SetBoundary` with an inverted box is silently ignored and leaves the
boundary state (box and enabled flag) entirely unchanged; with a non-inverted
box it stores the box and sets the boundary flag that gates the ray-cast
loop's rejection test. -/
theorem setBoundary_spec (st : BoundaryState) (a : AABB) :
    (a.isInverted = true → setBoundary st a = st) ∧
      (a.isInverted = false →
        (setBoundary st a).aabb = a ∧ (setBoundary st a).boundary = true) := by
  constructor
  · intro h
    simp [setBoundary, h]
  · intro h
    simp [setBoundary, h]

/-- C8, witness: a concrete inverted box leaves the state unchanged; a
concrete proper box is stored and enables the boundary. -/
theorem setBoundary_spec_witness :
    setBoundary bnd0 aabbInv = bnd0 ∧
      (setBoundary bnd0 aabbGood).aabb = aabbGood ∧
      (setBoundary bnd0 aabbGood).boundary = true :=
  ⟨(setBoundary_spec bnd0 aabbInv).1 (by decide),
   (setBoundary_spec bnd0 aabbGood).2 (by decide)⟩

/-- C9, counterexample: at hull area exactly `10^-6` the claim ("`oob =
P/(2A)` when the area EXCEEDS `10^-6`, else 0") predicts 0, but the source
tests `area < 1e-6`, so the shape factor is `P/(2A) = 500000 ≠ 0`. -/
theorem computeOob_boundary_cex :
    ¬((1 : ℚ) / 1000000 > 1 / 1000000) ∧ computeOob (1 / 1000000) 1 = 500000 := by
  constructor
  · norm_num
  · norm_num [computeOob]

/-- C9 (amended): the patch shape factor is `perimeter / (2 * area)` whenever
the hull area is at least `10^-6`, and 0 when the area is below `10^-6`
(degenerate patch, no Bekker cohesion contribution). -/
theorem computeOob_spec (area perimeter : ℚ) :
    (1 / 1000000 ≤ area → computeOob area perimeter = perimeter / (2 * area)) ∧
      (area < 1 / 1000000 → computeOob area perimeter = 0) := by
  constructor
  · intro h
    rw [computeOob, if_neg (not_lt.mpr h)]
  · intro h
    rw [computeOob, if_pos h]

/-- C9, witness: the amended shape-factor rule evaluated at a proper and a
degenerate area. -/
theorem computeOob_spec_witness :
    computeOob 1 3 = 3 / (2 * 1) ∧ computeOob (1 / 2000000) 3 = 0 :=
  ⟨(computeOob_spec 1 3).1 (by norm_num), (computeOob_spec (1 / 2000000) 3).2 (by norm_num)⟩

/-- C10: flat initialization with sizes `(sizeX, sizeY)` and a positive target
spacing sets the half grid counts to the ceilings `⌈sizeX / (2 delta)⌉` and
`⌈sizeY / (2 delta)⌉`, the actual spacing to `sizeX / (2 nx)` — which is at
most the requested spacing — and the base height to 0 at every grid cell. -/
theorem initFlat_spec (sizeX sizeY delta : ℚ) (hx : 0 < sizeX) (hd : 0 < delta) :
    (initFlat sizeX sizeY delta).nx = ⌈sizeX / (2 * delta)⌉ ∧
      (initFlat sizeX sizeY delta).ny = ⌈sizeY / (2 * delta)⌉ ∧
      (initFlat sizeX sizeY delta).delta =
        sizeX / (2 * ((initFlat sizeX sizeY delta).nx : ℚ)) ∧
      (initFlat sizeX sizeY delta).delta ≤ delta ∧
      ∀ (heights : Cell → ℚ) (loc : Cell),
        getInitHeight PatchType.flat heights
          (initFlat sizeX sizeY delta).nx (initFlat sizeX sizeY delta).ny loc = 0 := by
  refine ⟨?_, ?_, rfl, ?_, fun _ _ => rfl⟩
  · show (⌈sizeX / 2 / delta⌉ : ℤ) = ⌈sizeX / (2 * delta)⌉
    rw [div_div]
  · show (⌈sizeY / 2 / delta⌉ : ℤ) = ⌈sizeY / (2 * delta)⌉
    rw [div_div]
  have hq : (0 : ℚ) < sizeX / (2 * delta) := by positivity
  have hceil : sizeX / (2 * delta) ≤ ((⌈sizeX / (2 * delta)⌉ : ℤ) : ℚ) := Int.le_ceil _
  have hnx : (0 : ℚ) < ((⌈sizeX / (2 * delta)⌉ : ℤ) : ℚ) := by
    exact_mod_cast Int.ceil_pos.mpr hq
  show sizeX / (2 * ((⌈sizeX / 2 / delta⌉ : ℤ) : ℚ)) ≤ delta
  rw [div_div]
  rw [div_le_iff₀ (by positivity)]
  have h2 : sizeX = delta * (2 * (sizeX / (2 * delta))) := by
    field_simp
    ring
  calc sizeX = delta * (2 * (sizeX / (2 * delta))) := h2
    _ ≤ delta * (2 * ((⌈sizeX / (2 * delta)⌉ : ℤ) : ℚ)) := by
        have h3 := mul_le_mul_of_nonneg_left hceil (by norm_num : (0 : ℚ) ≤ 2)
        exact mul_le_mul_of_nonneg_left h3 hd.le

/-- C10, witness: flat initialization of a 10 x 10 patch at target spacing
3/10 gives `nx = 17` and actual spacing `5/17 ≤ 3/10`. -/
theorem initFlat_spec_witness :
    (0 : ℚ) < 10 ∧ (0 : ℚ) < 3 / 10 ∧ (initFlat 10 10 (3 / 10)).delta ≤ 3 / 10 :=
  ⟨by norm_num, by norm_num,
    (initFlat_spec 10 10 (3 / 10) (by norm_num) (by norm_num)).2.2.2.1⟩

end SCM
